import Mathlib

/-!
Verification of the Ogg/Vorbis duration computation of
`src/configGenerator.py` (`calculate_duration`).

A file is modelled as its byte content, a `List Nat` (each entry one byte).
`calculate_duration` is embedded as a pure function from the byte content
to `Except VorbisError ℚ`; the 64-bit floating-point division of the
source is modelled as exact rational division.
-/

namespace ConfigGenerator

/-- Bytes of the ASCII literal `OggS` (the Ogg capture pattern). -/
def oggsMarker : List Nat := [79, 103, 103, 83]

/-- A byte equal to 1 followed by the ASCII literal `vorbis`: the
Vorbis identification-header pattern searched for in the header scan. -/
def vorbisMarker : List Nat := [1, 118, 111, 114, 98, 105, 115]

/-- `int.from_bytes(bs, 'little')`: unsigned little-endian interpretation
of a byte string, of any length (the empty string yields 0). -/
def leNat : List Nat → Nat
  | [] => 0
  | b :: bs => b + 256 * leNat bs

/-- Error taxonomy of `calculate_duration` (in the source each is a
`ValueError` with a distinct message; `TruncatedInput` is the
`IndexError` raised by the `channels = header_data[pos+4]` access,
re-raised as a `ValueError` by the generic handler). -/
inductive VorbisError where
  | NotAnOggStream
  | VorbisHeaderNotFound
  | UnsupportedVorbisVersion (version : Nat)
  | ImplausibleSampleRate (rate : Nat)
  | NoOggPageFound
  | TruncatedInput
deriving DecidableEq

/-- The match condition of the header-scan loop at the current offset:
`header_data[i] == 1 and header_data[i+1:i+7] == b'vorbis'`, together
with the loop bound `i in range(len(header_data) - 7)`, i.e. `i < len - 7`,
which demands at least one further byte past the 7-byte pattern. -/
def isHit (l : List Nat) : Bool :=
  decide (l.take 7 = vorbisMarker) && decide (l.drop 7 ≠ [])

/-- The header-scan loop: first offset `i` with `isHit` on the suffix at `i`
(`for i in range(len(header_data) - 7): ... break`), `none` if no match. -/
def findVorbis : List Nat → Option Nat
  | [] => none
  | b :: rest =>
    if isHit (b :: rest) then some 0 else (findVorbis rest).map (· + 1)

/-- The match condition of `bytes.rindex(b'OggS')` at the current offset:
the suffix starts with the full 4-byte pattern. -/
def isOggS (l : List Nat) : Bool :=
  decide (l.take 4 = oggsMarker)

/-- `data.rindex(b'OggS')`: offset of the last (rightmost) occurrence of
`OggS` in `data`, `none` when there is none (Python raises `ValueError`). -/
def lastOggS : List Nat → Option Nat
  | [] => none
  | b :: rest =>
    match lastOggS rest with
    | some i => some (i + 1)
    | none => if isOggS (b :: rest) then some 0 else none

/-- Header stage of `calculate_duration` (lines 31-60 of the source):
signature check, header scan over the first 8192 bytes, version gate,
channel byte access, sample-rate parse and bound check.  Returns the
sample rate. -/
def headerRate (file : List Nat) : Except VorbisError Nat :=
  -- if f.read(4) != b'OggS': raise "Not a valid OGG file"
  if file.take 4 ≠ oggsMarker then .error .NotAnOggStream
  else
    -- header_data = f.read(8192) after seek(0)
    let header_data := file.take 8192
    match findVorbis header_data with
    | none => .error .VorbisHeaderNotFound
    | some i =>
      -- pos = vorbis_header_pos + 7
      let pos := i + 7
      -- version = int.from_bytes(header_data[pos:pos+4], 'little')
      let version := leNat ((header_data.drop pos).take 4)
      if version ≠ 0 then .error (.UnsupportedVorbisVersion version)
      else
        -- channels = header_data[pos+4]  (IndexError when out of range)
        if pos + 4 < header_data.length then
          -- sample_rate = int.from_bytes(header_data[pos+5:pos+9], 'little')
          let sample_rate := leNat ((header_data.drop (pos + 5)).take 4)
          if 8000 ≤ sample_rate ∧ sample_rate ≤ 192000 then .ok sample_rate
          else .error (.ImplausibleSampleRate sample_rate)
        else .error .TruncatedInput

/-- Tail stage of `calculate_duration` (lines 66-80 of the source):
read the last `min(file_size, 65536)` bytes, locate the rightmost
`OggS` in that window, read the 8 bytes at offset 6 past it
(fewer when the file ends earlier, as `f.read(8)` returns what is
available) as the little-endian granule position. -/
def tailGranule (file : List Nat) : Except VorbisError Nat :=
  let file_size := file.length
  -- search_size = min(file_size, 65536)
  let search_size := min file_size 65536
  -- data = f.read(search_size) after seek(-search_size, 2)
  let data := file.drop (file_size - search_size)
  match lastOggS data with
  | none => .error .NoOggPageFound
  | some p =>
    -- absolute offset of the last OggS, then skip 6 bytes, read 8
    let o := file_size - search_size + p
    .ok (leNat ((file.drop (o + 6)).take 8))

/-- `calculate_duration` of `src/configGenerator.py`, on the byte content
of the file: header stage, tail stage, then
`duration = granule / sample_rate` (floating-point division modelled as
exact rational division). -/
def calculate_duration (file : List Nat) : Except VorbisError ℚ :=
  match headerRate file with
  | .error e => .error e
  | .ok sample_rate =>
    match tailGranule file with
    | .error e => .error e
    | .ok granule => .ok ((granule : ℚ) / (sample_rate : ℚ))

/-- The 7-byte identification-header pattern occurs at offset `i` of `l`
(all 7 bytes inside `l`). -/
def vorbisAt (l : List Nat) (i : Nat) : Prop :=
  (l.drop i).take 7 = vorbisMarker

instance (l : List Nat) (i : Nat) : Decidable (vorbisAt l i) := by
  unfold vorbisAt; infer_instance

/-- The 4-byte `OggS` pattern occurs at offset `i` of `l`
(all 4 bytes inside `l`). -/
def oggsAt (l : List Nat) (i : Nat) : Prop :=
  (l.drop i).take 4 = oggsMarker

instance (l : List Nat) (i : Nat) : Decidable (oggsAt l i) := by
  unfold oggsAt; infer_instance

instance {ε α : Type} [DecidableEq ε] [DecidableEq α] :
    DecidableEq (Except ε α)
  | .error a, .error b =>
    if h : a = b then .isTrue (by rw [h]) else .isFalse (by simp [h])
  | .error _, .ok _ => .isFalse (by simp)
  | .ok _, .error _ => .isFalse (by simp)
  | .ok a, .ok b =>
    if h : a = b then .isTrue (by rw [h]) else .isFalse (by simp [h])

/-- The header-scan loop tests offset `i`: the pattern matches there and the
loop bound `i < len - 7` admits it (at least 8 bytes from offset `i`). -/
def scanHit (l : List Nat) (i : Nat) : Prop :=
  vorbisAt l i ∧ i + 8 ≤ l.length

instance (l : List Nat) (i : Nat) : Decidable (scanHit l i) := by
  unfold scanHit; infer_instance

/-! ### Concrete inputs -/

/-- A minimal well-formed file: `OggS`, identification header
(version 0, 2 channels, 44100 Hz), and a final page whose granule
position is 2205000. -/
def exGood : List Nat :=
  oggsMarker ++ (vorbisMarker ++ ([0, 0, 0, 0] ++ ([2] ++ ([68, 172, 0, 0] ++
    (oggsMarker ++ ([0, 0] ++ [72, 165, 33, 0, 0, 0, 0, 0]))))))

/-- `OggS` followed by the identification-header pattern occupying the
last 7 bytes of the file (11 bytes in total). -/
def exShort11 : List Nat := oggsMarker ++ vorbisMarker

/-- Like `exShort11` with one further byte, so the scan finds the marker,
and the channel byte lies past the end of the data (12 bytes). -/
def exTrunc12 : List Nat := oggsMarker ++ (vorbisMarker ++ [0])

/-- A well-formed header followed by a final `OggS` whose granule
position field has zero of its 8 bytes available (26 bytes). -/
def exNoGranule : List Nat :=
  oggsMarker ++ (vorbisMarker ++ ([0, 0, 0, 0] ++ ([2] ++ ([68, 172, 0, 0] ++
    (oggsMarker ++ [0, 0])))))

/-- A file whose identification header has version 1. -/
def exVer1 : List Nat := oggsMarker ++ (vorbisMarker ++ [1, 0, 0, 0, 9])

/-- A file whose identification header has sample rate 7999. -/
def exRate7999 : List Nat :=
  oggsMarker ++ (vorbisMarker ++ ([0, 0, 0, 0] ++ ([2] ++ [63, 31, 0, 0])))

/-- Trailing 16 bytes of `exChan`: version zeros were just before, then
the channel byte `c`, then the sample-rate field whose fourth byte 83
falls outside the 8192-byte header window. -/
def exChanTail (c : Nat) : List Nat :=
  [0, 0, 0, 0] ++ ([c] ++ ([103, 103, 83] ++ ([0, 0] ++ [1, 0, 0, 0, 0])))

/-- 8200-byte file whose identification header starts at offset 8178, so
that its channel byte (offset 8189) sits inside the 65536-byte tail
window; with `c = 79` the bytes at 8189-8192 read `OggS`. -/
def exChan (c : Nat) : List Nat :=
  oggsMarker ++ (List.replicate 8174 0 ++ (vorbisMarker ++ exChanTail c))

/-- 65560-byte well-formed file whose channel byte (offset 15) lies
before the 65536-byte tail window. -/
def exBig : List Nat :=
  oggsMarker ++ (vorbisMarker ++ ([0, 0, 0, 0] ++ ([2] ++ ([68, 172, 0, 0] ++
    (List.replicate 65526 0 ++ (oggsMarker ++ ([0, 0] ++ [72, 165, 33, 0, 0, 0, 0, 0])))))))

/-! ### Characterization of the header scan -/

theorem scanHit_nil (i : Nat) : ¬ scanHit [] i := by
  rintro ⟨-, h⟩
  simp at h

theorem scanHit_succ_cons (b : Nat) (l : List Nat) (i : Nat) :
    scanHit (b :: l) (i + 1) ↔ scanHit l i := by
  simp only [scanHit, vorbisAt, List.drop_succ_cons, List.length_cons]
  constructor <;> rintro ⟨h1, h2⟩ <;> exact ⟨h1, by omega⟩

theorem scanHit_zero_iff (l : List Nat) : scanHit l 0 ↔ isHit l = true := by
  simp only [scanHit, vorbisAt, List.drop_zero, isHit, Bool.and_eq_true,
    decide_eq_true_eq, ne_eq, List.drop_eq_nil_iff, not_le]
  constructor <;> rintro ⟨h1, h2⟩ <;> exact ⟨h1, by omega⟩

theorem findVorbis_cons (b : Nat) (l : List Nat) :
    findVorbis (b :: l) =
      if isHit (b :: l) then some 0 else (findVorbis l).map (· + 1) := rfl

theorem findVorbis_eq_none_iff (l : List Nat) :
    findVorbis l = none ↔ ∀ i, ¬ scanHit l i := by
  induction l with
  | nil => simp [findVorbis, scanHit_nil]
  | cons b rest ih =>
    rw [findVorbis_cons]
    cases hb : isHit (b :: rest) with
    | true =>
      simp only [hb, if_true]
      constructor
      · intro hc; exact absurd hc (by simp)
      · intro hall; exact absurd ((scanHit_zero_iff _).mpr hb) (hall 0)
    | false =>
      simp only [hb, Bool.false_eq_true, if_false, Option.map_eq_none', ih]
      constructor
      · intro hall i
        cases i with
        | zero =>
          intro h0
          rw [scanHit_zero_iff] at h0
          simp [h0] at hb
        | succ i => rw [scanHit_succ_cons]; exact hall i
      · intro hall i
        have := hall (i + 1)
        rwa [scanHit_succ_cons] at this

theorem findVorbis_eq_some_iff (l : List Nat) (m : Nat) :
    findVorbis l = some m ↔ scanHit l m ∧ ∀ j, j < m → ¬ scanHit l j := by
  induction l generalizing m with
  | nil => simp [findVorbis, scanHit_nil]
  | cons b rest ih =>
    rw [findVorbis_cons]
    cases hb : isHit (b :: rest) with
    | true =>
      simp only [hb, if_true]
      cases m with
      | zero =>
        constructor
        · intro _
          exact ⟨(scanHit_zero_iff _).mpr hb, fun j hj => absurd hj (by omega)⟩
        · intro _; rfl
      | succ m =>
        constructor
        · intro hc; simp at hc
        · rintro ⟨-, hmin⟩
          exact absurd ((scanHit_zero_iff _).mpr hb) (hmin 0 (Nat.succ_pos m))
    | false =>
      simp only [hb, Bool.false_eq_true, if_false, Option.map_eq_some']
      cases m with
      | zero =>
        constructor
        · rintro ⟨a, -, hc⟩; omega
        · rintro ⟨h0, -⟩
          rw [scanHit_zero_iff] at h0
          simp [h0] at hb
      | succ m =>
        constructor
        · rintro ⟨a, ha, hc⟩
          have haeq : a = m := by omega
          rw [haeq] at ha
          obtain ⟨hm, hmin⟩ := (ih m).mp ha
          refine ⟨(scanHit_succ_cons b rest m).mpr hm, ?_⟩
          intro j hj
          cases j with
          | zero =>
            intro h0
            rw [scanHit_zero_iff] at h0
            simp [h0] at hb
          | succ j =>
            rw [scanHit_succ_cons]
            exact hmin j (by omega)
        · rintro ⟨hm, hmin⟩
          refine ⟨m, (ih m).mpr ⟨(scanHit_succ_cons b rest m).mp hm, ?_⟩, rfl⟩
          intro j hj
          have := hmin (j + 1) (by omega)
          rwa [scanHit_succ_cons] at this

/-! ### Characterization of the tail scan (`rindex`) -/

theorem oggsAt_nil (i : Nat) : ¬ oggsAt [] i := by
  simp [oggsAt, oggsMarker]

theorem oggsAt_succ_cons (b : Nat) (l : List Nat) (i : Nat) :
    oggsAt (b :: l) (i + 1) ↔ oggsAt l i := by
  simp [oggsAt, List.drop_succ_cons]

theorem oggsAt_zero_iff (l : List Nat) : oggsAt l 0 ↔ isOggS l = true := by
  simp [oggsAt, isOggS]

theorem lastOggS_cons (b : Nat) (l : List Nat) :
    lastOggS (b :: l) =
      match lastOggS l with
      | some i => some (i + 1)
      | none => if isOggS (b :: l) then some 0 else none := rfl

theorem oggsAt_of_lastOggS_some : ∀ {l : List Nat} {i : Nat},
    lastOggS l = some i → oggsAt l i := by
  intro l
  induction l with
  | nil => intro i h; exact absurd h (by simp [lastOggS])
  | cons b rest ih =>
    intro i h
    rw [lastOggS_cons] at h
    cases hr : lastOggS rest with
    | some j =>
      rw [hr] at h
      injection h with h
      rw [← h]
      exact (oggsAt_succ_cons b rest j).mpr (ih hr)
    | none =>
      rw [hr] at h
      cases ho : isOggS (b :: rest) with
      | true =>
        rw [ho] at h
        simp only [if_true, Option.some.injEq] at h
        rw [← h]
        exact (oggsAt_zero_iff _).mpr ho
      | false =>
        rw [ho] at h
        simp at h

theorem lastOggS_eq_none_iff (l : List Nat) :
    lastOggS l = none ↔ ∀ p, ¬ oggsAt l p := by
  induction l with
  | nil => simp [lastOggS, oggsAt_nil]
  | cons b rest ih =>
    rw [lastOggS_cons]
    cases hr : lastOggS rest with
    | some i =>
      constructor
      · intro hc; exact absurd hc (by simp)
      · intro hall
        have hi : oggsAt rest i := oggsAt_of_lastOggS_some hr
        exact absurd ((oggsAt_succ_cons b rest i).mpr hi) (hall (i + 1))
    | none =>
      have hrest := ih.mp hr
      cases ho : isOggS (b :: rest) with
      | true =>
        simp only [ho, if_true]
        constructor
        · intro hc; exact absurd hc (by simp)
        · intro hall; exact absurd ((oggsAt_zero_iff _).mpr ho) (hall 0)
      | false =>
        simp only [ho, Bool.false_eq_true, if_false, true_iff]
        intro p
        cases p with
        | zero =>
          intro h0
          rw [oggsAt_zero_iff] at h0
          simp [h0] at ho
        | succ p =>
          rw [oggsAt_succ_cons]
          exact hrest p

theorem lastOggS_eq_some_iff (l : List Nat) (p : Nat) :
    lastOggS l = some p ↔ oggsAt l p ∧ ∀ q, p < q → ¬ oggsAt l q := by
  induction l generalizing p with
  | nil => simp [lastOggS, oggsAt_nil]
  | cons b rest ih =>
    rw [lastOggS_cons]
    cases hr : lastOggS rest with
    | some i =>
      have hi := (ih i).mp hr
      simp only [Option.some.injEq]
      constructor
      · intro hc
        rw [← hc]
        refine ⟨(oggsAt_succ_cons b rest i).mpr hi.1, ?_⟩
        intro q hq
        cases q with
        | zero => omega
        | succ q =>
          rw [oggsAt_succ_cons]
          exact hi.2 q (by omega)
      · rintro ⟨hp, hmax⟩
        cases p with
        | zero =>
          exact absurd ((oggsAt_succ_cons b rest i).mpr hi.1)
            (hmax (i + 1) (by omega))
        | succ p =>
          rw [oggsAt_succ_cons] at hp
          have : lastOggS rest = some p := by
            rw [ih p]
            refine ⟨hp, ?_⟩
            intro q hq
            have := hmax (q + 1) (by omega)
            rwa [oggsAt_succ_cons] at this
          rw [hr] at this
          injection this with h
          omega
    | none =>
      have hrest := (lastOggS_eq_none_iff rest).mp hr
      cases ho : isOggS (b :: rest) with
      | true =>
        simp only [ho, if_true, Option.some.injEq]
        constructor
        · intro hc
          rw [← hc]
          refine ⟨(oggsAt_zero_iff _).mpr ho, ?_⟩
          intro q hq
          cases q with
          | zero => omega
          | succ q =>
            rw [oggsAt_succ_cons]
            exact hrest q
        · rintro ⟨hp, hmax⟩
          cases p with
          | zero => rfl
          | succ p =>
            rw [oggsAt_succ_cons] at hp
            exact absurd hp (hrest p)
      | false =>
        simp only [ho, Bool.false_eq_true, if_false]
        constructor
        · intro hc; exact absurd hc (by simp)
        · rintro ⟨hp, -⟩
          exfalso
          cases p with
        | zero =>
          rw [oggsAt_zero_iff] at hp
          simp [hp] at ho
        | succ p =>
          rw [oggsAt_succ_cons] at hp
          exact hrest p hp

/-! ### Evaluation helpers for inputs built from `List.replicate` -/

theorem isHit_cons_of_ne {b : Nat} (l : List Nat) (hb : b ≠ 1) :
    isHit (b :: l) = false := by
  have h7 : (b :: l).take 7 = b :: l.take 6 := rfl
  simp [isHit, h7, vorbisMarker, hb]

theorem findVorbis_cons_of_ne {b : Nat} (l : List Nat) (hb : b ≠ 1) :
    findVorbis (b :: l) = (findVorbis l).map (· + 1) := by
  rw [findVorbis_cons, isHit_cons_of_ne l hb]
  simp

theorem findVorbis_replicate_zero (n : Nat) (l : List Nat) :
    findVorbis (List.replicate n 0 ++ l) = (findVorbis l).map (n + ·) := by
  induction n with
  | zero => cases h : findVorbis l <;> simp [h]
  | succ n ih =>
    rw [List.replicate_succ, List.cons_append,
      findVorbis_cons_of_ne _ (by omega), ih]
    cases h : findVorbis l with
    | none => simp [h]
    | some a =>
      simp [h]
      omega

theorem findVorbis_marker (b : Nat) (l : List Nat) :
    findVorbis (vorbisMarker ++ b :: l) = some 0 := by
  have hh : isHit (vorbisMarker ++ b :: l) = true := by
    simp [isHit, vorbisMarker]
  rw [show vorbisMarker ++ b :: l =
    1 :: (118 :: (111 :: (114 :: (98 :: (105 :: (115 :: (b :: l))))))) from rfl]
  rw [findVorbis_cons]
  rw [show (1 : Nat) :: (118 :: (111 :: (114 :: (98 :: (105 :: (115 :: (b :: l))))))) =
    vorbisMarker ++ b :: l from rfl, hh]
  simp

theorem isOggS_cons_of_ne {b : Nat} (l : List Nat) (hb : b ≠ 79) :
    isOggS (b :: l) = false := by
  have h4 : (b :: l).take 4 = b :: l.take 3 := rfl
  simp [isOggS, h4, oggsMarker, hb]

theorem lastOggS_cons_some {l : List Nat} {i : Nat} (b : Nat)
    (h : lastOggS l = some i) : lastOggS (b :: l) = some (i + 1) := by
  rw [lastOggS_cons, h]

theorem lastOggS_cons_none_of_ne {b : Nat} {l : List Nat} (hb : b ≠ 79)
    (h : lastOggS l = none) : lastOggS (b :: l) = none := by
  rw [lastOggS_cons, h, isOggS_cons_of_ne l hb]
  simp

theorem lastOggS_replicate_zero (n : Nat) (l : List Nat) :
    lastOggS (List.replicate n 0 ++ l) = (lastOggS l).map (n + ·) := by
  induction n with
  | zero => cases h : lastOggS l <;> simp [h]
  | succ n ih =>
    rw [List.replicate_succ, List.cons_append]
    cases h : lastOggS l with
    | some i =>
      rw [h] at ih
      simp only [Option.map_some'] at ih
      rw [lastOggS_cons_some _ ih]
      simp only [Option.map_some', Option.some.injEq]
      omega
    | none =>
      rw [h] at ih
      simp only [Option.map_none'] at ih
      rw [lastOggS_cons_none_of_ne (by omega) ih]
      simp

theorem leNat_replicate_zero (n : Nat) : leNat (List.replicate n 0) = 0 := by
  induction n with
  | zero => rfl
  | succ n ih => rw [List.replicate_succ, leNat, ih]

/-! ### Slices under windowing and single-byte writes -/

/-- A sub-slice of a prefix window equals the sub-slice of the whole list
when it lies inside the window. -/
theorem slice_take (l : List Nat) (a b N : Nat) (h : a + b ≤ N) :
    ((l.take N).drop a).take b = (l.drop a).take b := by
  apply List.ext_getElem
  · simp only [List.length_take, List.length_drop]
    omega
  · intro n h₁ h₂
    simp [List.getElem_take, List.getElem_drop]

/-- Writing a byte at position `p` does not change a slice lying entirely
left of `p` or entirely right of `p`. -/
theorem slice_set (l : List Nat) (p c a b : Nat) (h : a + b ≤ p ∨ p < a) :
    ((l.set p c).drop a).take b = (l.drop a).take b := by
  apply List.ext_getElem
  · simp only [List.length_take, List.length_drop, List.length_set]
  · intro n h₁ h₂
    have hb : n < b := by
      simp only [List.length_take] at h₁
      omega
    simp only [List.getElem_take, List.getElem_drop, List.getElem_set]
    rw [if_neg (by omega)]

/-- Writing a byte at position `p < a` does not change `drop a`. -/
theorem drop_set_of_lt (l : List Nat) (p c a : Nat) (h : p < a) :
    (l.set p c).drop a = l.drop a := by
  apply List.ext_getElem
  · simp [List.length_set]
  · intro n h₁ h₂
    simp only [List.getElem_drop, List.getElem_set]
    rw [if_neg (by omega)]

/-- Writing a byte commutes with taking a prefix window. -/
theorem take_set_comm (l : List Nat) (p c N : Nat) :
    (l.set p c).take N = (l.take N).set p c := by
  apply List.ext_getElem
  · simp [List.length_take, List.length_set]
  · intro n h₁ h₂
    have hn : n < N ∧ n < l.length := by
      simp only [List.length_take, List.length_set, lt_min_iff] at h₁
      exact ⟨h₁.1, h₁.2⟩
    rw [List.getElem_take, List.getElem_set, List.getElem_set]
    by_cases hp : p = n
    · simp [hp]
    · simp [hp, List.getElem_take]


/-! ### Unfolding and inversion lemmas for the three stages -/

theorem headerRate_not_oggs {file : List Nat} (h : file.take 4 ≠ oggsMarker) :
    headerRate file = .error .NotAnOggStream := by
  rw [headerRate, if_pos h]

theorem headerRate_no_marker {file : List Nat} (h4 : file.take 4 = oggsMarker)
    (hm : findVorbis (file.take 8192) = none) :
    headerRate file = .error .VorbisHeaderNotFound := by
  rw [headerRate, if_neg (by simp [h4])]
  simp only [hm]

theorem headerRate_found {file : List Nat} {i : Nat}
    (h4 : file.take 4 = oggsMarker)
    (hm : findVorbis (file.take 8192) = some i) :
    headerRate file =
      (let header_data := file.take 8192
       let pos := i + 7
       let version := leNat ((header_data.drop pos).take 4)
       if version ≠ 0 then .error (.UnsupportedVorbisVersion version)
       else
         if pos + 4 < header_data.length then
           let sample_rate := leNat ((header_data.drop (pos + 5)).take 4)
           if 8000 ≤ sample_rate ∧ sample_rate ≤ 192000 then .ok sample_rate
           else .error (.ImplausibleSampleRate sample_rate)
         else .error .TruncatedInput) := by
  rw [headerRate, if_neg (by simp [h4])]
  simp only [hm]

theorem headerRate_ok_inv {file : List Nat} {R : Nat}
    (h : headerRate file = .ok R) :
    8000 ≤ R ∧ R ≤ 192000 ∧
      ∃ i, findVorbis (file.take 8192) = some i ∧
        R = leNat (((file.take 8192).drop (i + 12)).take 4) := by
  rw [headerRate] at h
  split at h
  · exact absurd h (by simp)
  · dsimp only at h
    split at h
    · exact absurd h (by simp)
    · rename_i i hm
      split at h
      · exact absurd h (by simp)
      split at h
      · split at h
        · rename_i hrange
          injection h with h
          refine ⟨by omega, by omega, i, hm, ?_⟩
          rw [← h]
        · exact absurd h (by simp)
      · exact absurd h (by simp)

theorem tailGranule_eq_none {file : List Nat}
    (h : lastOggS (file.drop (file.length - min file.length 65536)) = none) :
    tailGranule file = .error .NoOggPageFound := by
  rw [tailGranule]
  simp only [h]

theorem tailGranule_eq_some {file : List Nat} {p : Nat}
    (h : lastOggS (file.drop (file.length - min file.length 65536)) = some p) :
    tailGranule file =
      .ok (leNat ((file.drop (file.length - min file.length 65536 + p + 6)).take 8)) := by
  rw [tailGranule]
  simp only [h]

theorem tailGranule_error_iff (file : List Nat) (e : VorbisError) :
    tailGranule file = .error e ↔
      e = .NoOggPageFound ∧
        lastOggS (file.drop (file.length - min file.length 65536)) = none := by
  cases h : lastOggS (file.drop (file.length - min file.length 65536)) with
  | none =>
    rw [tailGranule_eq_none h]
    constructor
    · intro hc; injection hc with hc; exact ⟨hc.symm, rfl⟩
    · rintro ⟨rfl, -⟩; rfl
  | some p =>
    rw [tailGranule_eq_some h]
    constructor
    · intro hc; exact absurd hc (by simp)
    · rintro ⟨-, hc⟩; exact absurd hc (by simp [h])

theorem calculate_duration_error_header {file : List Nat} {e : VorbisError}
    (h : headerRate file = .error e) : calculate_duration file = .error e := by
  rw [calculate_duration, h]

theorem calculate_duration_error_tail {file : List Nat} {R : Nat} {e : VorbisError}
    (hR : headerRate file = .ok R) (hT : tailGranule file = .error e) :
    calculate_duration file = .error e := by
  rw [calculate_duration, hR, hT]

theorem calculate_duration_ok {file : List Nat} {R G : Nat}
    (hR : headerRate file = .ok R) (hG : tailGranule file = .ok G) :
    calculate_duration file = .ok ((G : ℚ) / (R : ℚ)) := by
  rw [calculate_duration, hR, hG]

theorem calculate_duration_error_iff (file : List Nat) (e : VorbisError) :
    calculate_duration file = .error e ↔
      headerRate file = .error e ∨
        (∃ R, headerRate file = .ok R ∧ tailGranule file = .error e) := by
  rw [calculate_duration]
  cases hH : headerRate file with
  | error e₂ =>
    simp only [hH]
    constructor
    · intro hc; injection hc with hc; exact Or.inl (by rw [hc])
    · rintro (hc | ⟨R, hc, -⟩)
      · injection hc with hc; rw [hc]
      · exact absurd hc (by simp)
  | ok R =>
    simp only [hH]
    cases hT : tailGranule file with
    | error e₂ =>
      simp only [hT]
      constructor
      · intro hc; injection hc with hc; exact Or.inr ⟨R, rfl, by rw [hc]⟩
      · rintro (hc | ⟨R₂, -, hc₂⟩)
        · exact absurd hc (by simp)
        · injection hc₂ with hc₂
          rw [hc₂]
    | ok G =>
      simp only [hT]
      constructor
      · intro hc; exact absurd hc (by simp)
      · rintro (hc | ⟨R₂, -, hc₂⟩)
        · exact absurd hc (by simp)
        · exact absurd hc₂ (by simp)


/-! ### Evaluation of the large inputs -/

theorem exChan_take4 (c : Nat) : (exChan c).take 4 = oggsMarker := rfl

theorem exChan_length (c : Nat) : (exChan c).length = 8200 := by
  rw [exChan, exChanTail]
  simp only [List.length_append]
  rw [List.length_replicate]
  norm_num [oggsMarker, vorbisMarker]

theorem exChan_window (c : Nat) : (exChan c).take 8192 =
    oggsMarker ++ (List.replicate 8174 0 ++ (vorbisMarker ++
      ([0, 0, 0, 0] ++ ([c] ++ [103, 103])))) := by
  simp only [exChan, exChanTail, oggsMarker, vorbisMarker,
    List.take_append_eq_append_take, List.take_replicate, List.length_replicate,
    List.length_cons, List.length_nil, List.length_append]
  norm_num

theorem exChan_findVorbis (c : Nat) :
    findVorbis ((exChan c).take 8192) = some 8178 := by
  rw [exChan_window]
  simp only [oggsMarker, List.cons_append, List.nil_append]
  rw [findVorbis_cons_of_ne _ (by omega), findVorbis_cons_of_ne _ (by omega),
    findVorbis_cons_of_ne _ (by omega), findVorbis_cons_of_ne _ (by omega),
    findVorbis_replicate_zero]
  rw [show ([0, 0, 0, 0, c, 103, 103] : List Nat) =
    0 :: [0, 0, 0, c, 103, 103] from rfl]
  rw [findVorbis_marker]
  simp

theorem exChan_headerRate (c : Nat) : headerRate (exChan c) = .ok 26471 := by
  rw [headerRate_found (exChan_take4 c) (exChan_findVorbis c)]
  dsimp only
  rw [exChan_window]
  have hver : ((oggsMarker ++ (List.replicate 8174 0 ++ (vorbisMarker ++
      ([0, 0, 0, 0] ++ ([c] ++ [103, 103]))))).drop (8178 + 7)).take 4 = [0, 0, 0, 0] := by
    simp only [oggsMarker, vorbisMarker, List.drop_append_eq_append_drop,
      List.drop_replicate, List.length_replicate, List.length_cons, List.length_nil,
      List.length_append, List.take_append_eq_append_take]
    norm_num
  have hrate : ((oggsMarker ++ (List.replicate 8174 0 ++ (vorbisMarker ++
      ([0, 0, 0, 0] ++ ([c] ++ [103, 103]))))).drop (8178 + 12)).take 4 = [103, 103] := by
    simp only [oggsMarker, vorbisMarker, List.drop_append_eq_append_drop,
      List.drop_replicate, List.length_replicate, List.length_cons, List.length_nil,
      List.length_append, List.take_append_eq_append_take]
    norm_num
  have hlen : (oggsMarker ++ (List.replicate 8174 0 ++ (vorbisMarker ++
      ([0, 0, 0, 0] ++ ([c] ++ [103, 103]))))).length = 8192 := by
    simp only [List.length_append]
    rw [List.length_replicate]
    norm_num [oggsMarker, vorbisMarker]
  rw [hver, hrate, hlen]
  norm_num
  rfl


theorem exChanA_lastOggS : lastOggS (exChan 0) = some 0 := by
  have hinner : lastOggS (vorbisMarker ++ exChanTail 0) = none := by decide
  have hrep : lastOggS (List.replicate 8174 0 ++ (vorbisMarker ++ exChanTail 0)) = none := by
    rw [lastOggS_replicate_zero, hinner]
    rfl
  have h83 : lastOggS (83 :: (List.replicate 8174 0 ++ (vorbisMarker ++ exChanTail 0))) = none :=
    lastOggS_cons_none_of_ne (by omega) hrep
  have h103a : lastOggS (103 :: (83 :: (List.replicate 8174 0 ++ (vorbisMarker ++ exChanTail 0)))) = none :=
    lastOggS_cons_none_of_ne (by omega) h83
  have h103b : lastOggS (103 :: (103 :: (83 :: (List.replicate 8174 0 ++ (vorbisMarker ++ exChanTail 0))))) = none :=
    lastOggS_cons_none_of_ne (by omega) h103a
  rw [show exChan 0 =
    79 :: (103 :: (103 :: (83 :: (List.replicate 8174 0 ++ (vorbisMarker ++ exChanTail 0))))) from rfl]
  rw [lastOggS_cons, h103b]
  rfl

theorem exChanB_lastOggS : lastOggS (exChan 79) = some 8189 := by
  have hinner : lastOggS (vorbisMarker ++ exChanTail 79) = some 11 := by decide
  have hrep : lastOggS (List.replicate 8174 0 ++ (vorbisMarker ++ exChanTail 79)) = some 8185 := by
    rw [lastOggS_replicate_zero, hinner]
    rfl
  rw [show exChan 79 =
    79 :: (103 :: (103 :: (83 :: (List.replicate 8174 0 ++ (vorbisMarker ++ exChanTail 79))))) from rfl]
  rw [lastOggS_cons_some _ (lastOggS_cons_some _ (lastOggS_cons_some _ (lastOggS_cons_some _ hrep)))]

theorem exChanA_tailGranule : tailGranule (exChan 0) = .ok 0 := by
  have h0 : (exChan 0).length - min (exChan 0).length 65536 = 0 := by
    rw [exChan_length]
    norm_num
  have hl : lastOggS ((exChan 0).drop ((exChan 0).length - min (exChan 0).length 65536)) = some 0 := by
    rw [h0, List.drop_zero]
    exact exChanA_lastOggS
  rw [tailGranule_eq_some hl, h0]
  have hg : ((exChan 0).drop 6).take 8 = List.replicate 8 0 := by
    simp only [exChan, exChanTail, oggsMarker, vorbisMarker,
      List.drop_append_eq_append_drop, List.drop_replicate,
      List.take_append_eq_append_take, List.take_replicate, List.length_cons,
      List.length_nil, List.length_append, List.length_replicate]
    norm_num
  rw [show (0 + 0 + 6 : Nat) = 6 from rfl, hg, leNat_replicate_zero]

theorem exChanB_tailGranule : tailGranule (exChan 79) = .ok 1 := by
  have h0 : (exChan 79).length - min (exChan 79).length 65536 = 0 := by
    rw [exChan_length]
    norm_num
  have hl : lastOggS ((exChan 79).drop ((exChan 79).length - min (exChan 79).length 65536)) = some 8189 := by
    rw [h0, List.drop_zero]
    exact exChanB_lastOggS
  rw [tailGranule_eq_some hl, h0]
  have hg : ((exChan 79).drop 8195).take 8 = [1, 0, 0, 0, 0] := by
    simp only [exChan, exChanTail, oggsMarker, vorbisMarker,
      List.drop_append_eq_append_drop, List.drop_replicate,
      List.take_append_eq_append_take, List.take_replicate, List.length_cons,
      List.length_nil, List.length_append, List.length_replicate]
    norm_num
  rw [show (0 + 8189 + 6 : Nat) = 8195 from rfl, hg]
  rfl

theorem exChan_set : (exChan 0).set 8189 79 = exChan 79 := by
  simp only [exChan, exChanTail, oggsMarker, vorbisMarker, List.set_append,
    List.length_append, List.length_replicate, List.length_cons, List.length_nil,
    List.singleton_append, List.cons_append, List.nil_append]
  norm_num


theorem exBig_length : exBig.length = 65560 := by
  rw [exBig]
  simp only [List.length_append]
  rw [List.length_replicate]
  norm_num [oggsMarker, vorbisMarker]

theorem exBig_window : exBig.take 8192 =
    oggsMarker ++ (vorbisMarker ++ ([0, 0, 0, 0] ++ ([2] ++ ([68, 172, 0, 0] ++
      List.replicate 8172 0)))) := by
  simp only [exBig, oggsMarker, vorbisMarker, List.take_append_eq_append_take,
    List.take_replicate, List.length_replicate, List.length_cons, List.length_nil,
    List.length_append]
  norm_num

theorem exBig_findVorbis : findVorbis (exBig.take 8192) = some 4 := by
  rw [exBig_window]
  simp only [oggsMarker, List.cons_append, List.nil_append]
  rw [findVorbis_cons_of_ne _ (by omega), findVorbis_cons_of_ne _ (by omega),
    findVorbis_cons_of_ne _ (by omega), findVorbis_cons_of_ne _ (by omega)]
  rw [findVorbis_marker]
  rfl


/-! ### Claims -/

/-- C1: for every well-formed input whose parsed sample rate is `R`
(with `8000 ≤ R ≤ 192000`) and whose extracted final granule position is
`G`, `compute_duration` returns the quotient `G / R` (the floating-point
division modelled as exact rational division). -/
theorem c1_duration_is_quotient (file : List Nat) (R G : Nat)
    (hR : headerRate file = .ok R) (hG : tailGranule file = .ok G) :
    8000 ≤ R ∧ R ≤ 192000 ∧
      calculate_duration file = .ok ((G : ℚ) / (R : ℚ)) :=
  ⟨(headerRate_ok_inv hR).1, (headerRate_ok_inv hR).2.1,
    calculate_duration_ok hR hG⟩

/-- C1 witness: the 44100 Hz stream `exGood` with final granule position
2205000 yields exactly 50 seconds. -/
theorem c1_witness :
    (8000 ≤ 44100 ∧ 44100 ≤ 192000 ∧
      calculate_duration exGood = .ok ((2205000 : ℚ) / (44100 : ℚ))) ∧
      (2205000 : ℚ) / (44100 : ℚ) = 50 :=
  ⟨c1_duration_is_quotient exGood 44100 2205000 rfl rfl, by norm_num⟩

/-- C4: every input whose first 4 bytes are not `OggS` (in particular any
input shorter than 4 bytes) fails with `NotAnOggStream`, regardless of
the remaining content. -/
theorem c4_signature_rejection (file : List Nat)
    (h : file.take 4 ≠ oggsMarker) :
    calculate_duration file = .error .NotAnOggStream :=
  calculate_duration_error_header (headerRate_not_oggs h)

/-- C4 witness: the empty input and a 3-byte input both fail with
`NotAnOggStream`. -/
theorem c4_witness :
    calculate_duration [] = .error .NotAnOggStream ∧
      calculate_duration [5, 6, 7] = .error .NotAnOggStream :=
  ⟨c4_signature_rejection [] (by decide),
    c4_signature_rejection [5, 6, 7] (by decide)⟩

/-- C8: whenever `compute_duration` succeeds the result is non-negative
(no NaN exists in the exact rational model), the divisor comes from a
header stage that guarantees `8000 ≤ R`, and the value is the quotient of
the granule position by the sample rate. -/
theorem c8_success_nonneg (file : List Nat) (d : ℚ)
    (h : calculate_duration file = .ok d) :
    0 ≤ d ∧ ∃ R G, headerRate file = .ok R ∧ tailGranule file = .ok G ∧
      8000 ≤ R ∧ d = (G : ℚ) / (R : ℚ) := by
  rw [calculate_duration] at h
  cases hH : headerRate file with
  | error e => rw [hH] at h; exact absurd h (by simp)
  | ok R =>
    rw [hH] at h
    cases hT : tailGranule file with
    | error e => rw [hT] at h; exact absurd h (by simp)
    | ok G =>
      rw [hT] at h
      injection h with h
      refine ⟨?_, R, G, rfl, rfl, (headerRate_ok_inv hH).1, h.symm⟩
      rw [← h]
      exact div_nonneg (Nat.cast_nonneg G) (Nat.cast_nonneg R)

/-- C8 witness: instantiated on the valid stream `exGood`. -/
theorem c8_witness :
    0 ≤ (50 : ℚ) ∧ ∃ R G, headerRate exGood = .ok R ∧
      tailGranule exGood = .ok G ∧ 8000 ≤ R ∧ (50 : ℚ) = (G : ℚ) / (R : ℚ) :=
  c8_success_nonneg exGood 50
    (by rw [calculate_duration_ok (show headerRate exGood = .ok 44100 from rfl)
        (show tailGranule exGood = .ok 2205000 from rfl)]; norm_num)

/-- C9: `compute_duration` is deterministic, a pure function of the byte
content: equal byte contents give identical results. -/
theorem c9_deterministic (b₁ b₂ : List Nat) (h : b₁ = b₂) :
    calculate_duration b₁ = calculate_duration b₂ := by
  rw [h]

/-- C9 witness: instantiated on `exGood`. -/
theorem c9_witness : calculate_duration exGood = calculate_duration exGood :=
  c9_deterministic exGood exGood rfl


/-- Once the marker is found, the header stage can no longer fail with
`VorbisHeaderNotFound`. -/
theorem headerRate_found_ne_VHNF {file : List Nat} {i : Nat}
    (h4 : file.take 4 = oggsMarker)
    (hm : findVorbis (file.take 8192) = some i) :
    headerRate file ≠ .error .VorbisHeaderNotFound := by
  rw [headerRate_found h4 hm]
  dsimp only
  split
  · simp
  · split
    · split
      · simp
      · simp
    · simp

/-- C5: an input whose parsed little-endian 32-bit version field is
non-zero fails with `UnsupportedVorbisVersion` carrying that value and
never returns a duration; a zero version field passes the check. -/
theorem c5_version_gate (file : List Nat) (i : Nat)
    (h4 : file.take 4 = oggsMarker)
    (hm : findVorbis (file.take 8192) = some i) :
    (leNat (((file.take 8192).drop (i + 7)).take 4) ≠ 0 →
      calculate_duration file =
        .error (.UnsupportedVorbisVersion
          (leNat (((file.take 8192).drop (i + 7)).take 4)))) ∧
    (leNat (((file.take 8192).drop (i + 7)).take 4) = 0 →
      ∀ v, calculate_duration file ≠ .error (.UnsupportedVorbisVersion v)) := by
  have hfound := headerRate_found h4 hm
  dsimp only at hfound
  constructor
  · intro hv
    rw [if_pos hv] at hfound
    exact calculate_duration_error_header hfound
  · intro hv v hc
    rw [if_neg (by simp [hv])] at hfound
    rw [calculate_duration_error_iff] at hc
    rcases hc with hc | ⟨R, -, hc⟩
    · rw [hfound] at hc
      split at hc
      · split at hc
        · exact absurd hc (by simp)
        · exact absurd hc (by simp)
      · exact absurd hc (by simp)
    · rw [tailGranule_error_iff] at hc
      exact absurd hc.1 (by simp)

/-- C5 witness: a version-1 header fails with
`UnsupportedVorbisVersion 1`. -/
theorem c5_witness :
    calculate_duration exVer1 = .error (.UnsupportedVorbisVersion 1) :=
  (c5_version_gate exVer1 4 rfl (by decide)).1 (by decide)

/-- C6: the sample-rate bound is inclusive: any parsed rate outside
`[8000, 192000]` fails with `ImplausibleSampleRate` carrying that value,
and any rate inside the bound passes the check (the computation never
fails with `ImplausibleSampleRate`). -/
theorem c6_rate_bounds (file : List Nat) (i : Nat)
    (h4 : file.take 4 = oggsMarker)
    (hm : findVorbis (file.take 8192) = some i)
    (hv : leNat (((file.take 8192).drop (i + 7)).take 4) = 0)
    (hch : i + 11 < (file.take 8192).length) :
    (¬ (8000 ≤ leNat (((file.take 8192).drop (i + 12)).take 4) ∧
        leNat (((file.take 8192).drop (i + 12)).take 4) ≤ 192000) →
      calculate_duration file =
        .error (.ImplausibleSampleRate
          (leNat (((file.take 8192).drop (i + 12)).take 4)))) ∧
    ((8000 ≤ leNat (((file.take 8192).drop (i + 12)).take 4) ∧
        leNat (((file.take 8192).drop (i + 12)).take 4) ≤ 192000) →
      ∀ r, calculate_duration file ≠ .error (.ImplausibleSampleRate r)) := by
  have hfound := headerRate_found h4 hm
  dsimp only at hfound
  rw [show i + 7 + 5 = i + 12 from by omega,
    show i + 7 + 4 = i + 11 from by omega] at hfound
  rw [if_neg (by simp [hv]), if_pos hch] at hfound
  constructor
  · intro hr
    rw [if_neg hr] at hfound
    exact calculate_duration_error_header hfound
  · intro hr r hc
    rw [if_pos hr] at hfound
    rw [calculate_duration_error_iff] at hc
    rcases hc with hc | ⟨R, -, hc⟩
    · rw [hfound] at hc
      exact absurd hc (by simp)
    · rw [tailGranule_error_iff] at hc
      exact absurd hc.1 (by simp)

/-- C6 witness: rate 7999 fails with `ImplausibleSampleRate 7999`;
rate 44100 never produces an `ImplausibleSampleRate` error. -/
theorem c6_witness :
    calculate_duration exRate7999 = .error (.ImplausibleSampleRate 7999) ∧
      calculate_duration exGood ≠ .error (.ImplausibleSampleRate 44100) := by
  constructor
  · exact (c6_rate_bounds exRate7999 4 rfl (by decide) (by decide)
      (by decide)).1 (by decide)
  · exact (c6_rate_bounds exGood 4 rfl (by decide) (by decide)
      (by decide)).2 (by decide) 44100

/-- C3 amended: the only short-read failure is the channel-count byte
access: when the byte at offset 11 past the marker lies beyond the header
window, the computation fails with `TruncatedInput`. -/
theorem c3_truncated_channel (file : List Nat) (i : Nat)
    (h4 : file.take 4 = oggsMarker)
    (hm : findVorbis (file.take 8192) = some i)
    (hv : leNat (((file.take 8192).drop (i + 7)).take 4) = 0)
    (hch : ¬ (i + 11 < (file.take 8192).length)) :
    calculate_duration file = .error .TruncatedInput := by
  have hfound := headerRate_found h4 hm
  dsimp only at hfound
  rw [show i + 7 + 4 = i + 11 from by omega] at hfound
  rw [if_neg (by simp [hv]), if_neg hch] at hfound
  exact calculate_duration_error_header hfound

/-- C3 amended witness: in the 12-byte `exTrunc12` the channel byte lies
past the end of the data and the computation fails with
`TruncatedInput`. -/
theorem c3_witness : calculate_duration exTrunc12 = .error .TruncatedInput :=
  c3_truncated_channel exTrunc12 4 rfl (by decide) (by decide) (by decide)

/-- C3 counterexample: in the 26-byte `exNoGranule` the 8-byte
granule-position field at the last `OggS` (offset 20) extends past the
end of the data (20 + 6 + 8 > 26), yet the computation returns the
duration 0 computed from the empty short read instead of failing with
`TruncatedInput`. -/
theorem c3_counterexample :
    exNoGranule.length = 26 ∧ lastOggS exNoGranule = some 20 ∧
      exNoGranule.length < 20 + 6 + 8 ∧
      calculate_duration exNoGranule = .ok 0 := by
  refine ⟨rfl, by decide, by decide, ?_⟩
  rw [calculate_duration_ok (show headerRate exNoGranule = .ok 44100 from rfl)
    (show tailGranule exNoGranule = .ok 0 from rfl)]
  norm_num

/-- C2 amended: with the `OggS` signature present, the computation fails
with `VorbisHeaderNotFound` exactly when no offset of the window admits a
scan hit, where a hit needs the 7-byte pattern and one further byte
inside the window (`i < len - 7`); when the scan succeeds it returns the
leftmost such offset. -/
theorem c2_header_scan (file : List Nat) (h4 : file.take 4 = oggsMarker) :
    (calculate_duration file = .error .VorbisHeaderNotFound ↔
      ∀ i, ¬ scanHit (file.take 8192) i) ∧
    (∀ m, findVorbis (file.take 8192) = some m →
      scanHit (file.take 8192) m ∧
        ∀ j, j < m → ¬ scanHit (file.take 8192) j) := by
  constructor
  · constructor
    · intro hc
      rw [calculate_duration_error_iff] at hc
      rcases hc with hc | ⟨R, -, hc⟩
      · cases hfv : findVorbis (file.take 8192) with
        | none => exact (findVorbis_eq_none_iff _).mp hfv
        | some i => exact absurd hc (headerRate_found_ne_VHNF h4 hfv)
      · rw [tailGranule_error_iff] at hc
        exact absurd hc.1 (by simp)
    · intro hall
      exact calculate_duration_error_header
        (headerRate_no_marker h4 ((findVorbis_eq_none_iff _).mpr hall))
  · intro m hm
    exact (findVorbis_eq_some_iff _ _).mp hm

/-- C2 counterexample: in the 11-byte `exShort11` the 7-byte marker
occurs at offset 4, entirely inside the scan window, yet the scan misses
it (the loop bound excludes the final offset) and the computation fails
with `VorbisHeaderNotFound`. -/
theorem c2_counterexample :
    vorbisAt (exShort11.take 8192) 4 ∧
      calculate_duration exShort11 = .error .VorbisHeaderNotFound :=
  ⟨by decide, by rfl⟩

/-- C2 amended witness: on `exGood` the scan hits offset 4 and the
computation does not fail with `VorbisHeaderNotFound`. -/
theorem c2_witness :
    scanHit (exGood.take 8192) 4 ∧
      calculate_duration exGood ≠ .error .VorbisHeaderNotFound := by
  have h := c2_header_scan exGood rfl
  have hm : findVorbis (exGood.take 8192) = some 4 := by decide
  have hs := (h.2 4 hm).1
  exact ⟨hs, fun hc => (h.1.mp hc) 4 hs⟩

/-- C7: once the header stage has produced a rate, the tail scan examines
the last `min(length, 65536)` bytes: if no `OggS` occurs there the
computation fails with `NoOggPageFound`; otherwise it uses the rightmost
occurrence and reads the 8 bytes at offset 6 past it as the little-endian
granule position. -/
theorem c7_tail_scan (file : List Nat) (R : Nat)
    (hR : headerRate file = .ok R) :
    ((∀ p, ¬ oggsAt (file.drop (file.length - min file.length 65536)) p) →
      calculate_duration file = .error .NoOggPageFound) ∧
    (∀ p, oggsAt (file.drop (file.length - min file.length 65536)) p →
      (∀ q, p < q → ¬ oggsAt (file.drop (file.length - min file.length 65536)) q) →
      calculate_duration file =
        .ok ((leNat ((file.drop (file.length - min file.length 65536 + p + 6)).take 8) : ℚ) /
          (R : ℚ))) := by
  constructor
  · intro hall
    exact calculate_duration_error_tail hR
      (tailGranule_eq_none ((lastOggS_eq_none_iff _).mpr hall))
  · intro p hp hmax
    exact calculate_duration_ok hR
      (tailGranule_eq_some ((lastOggS_eq_some_iff _ _).mpr ⟨hp, hmax⟩))

/-- C7 witness: on `exGood` the rightmost `OggS` of the tail window is at
offset 20 and the granule position read there gives duration 50. -/
theorem c7_witness : calculate_duration exGood = .ok 50 := by
  have hmax := ((lastOggS_eq_some_iff
    (exGood.drop (exGood.length - min exGood.length 65536)) 20).mp (by rfl)).2
  have h := (c7_tail_scan exGood 44100 rfl).2 20 (by decide) hmax
  rw [h]
  norm_num [show leNat ((exGood.drop
    (exGood.length - min exGood.length 65536 + 20 + 6)).take 8) = 2205000 from rfl]


/-- C10 amended: writing any value into the channel byte (offset 11 past
the found marker) leaves the outcome unchanged, provided that byte lies
before the 65536-byte tail window.  (The counterexample below shows the
restriction is necessary: inside the tail window the byte can take part
in the `OggS` scan.) -/
theorem c10_channel_byte (file : List Nat) (m c : Nat)
    (hm : findVorbis (file.take 8192) = some m)
    (hp : m + 11 + 65536 < file.length) :
    calculate_duration (file.set (m + 11) c) = calculate_duration file := by
  have hw : (file.set (m + 11) c).take 8192 = (file.take 8192).set (m + 11) c :=
    take_set_comm _ _ _ _
  obtain ⟨⟨hva, hlen⟩, hmin⟩ := (findVorbis_eq_some_iff _ _).mp hm
  have hm' : findVorbis ((file.set (m + 11) c).take 8192) = some m := by
    rw [hw, findVorbis_eq_some_iff]
    refine ⟨⟨?_, ?_⟩, ?_⟩
    · unfold vorbisAt at hva ⊢
      rw [slice_set _ _ _ _ _ (Or.inl (by omega))]
      exact hva
    · rw [List.length_set]
      exact hlen
    · intro j hj hsj
      apply hmin j hj
      obtain ⟨hva2, hlen2⟩ := hsj
      refine ⟨?_, ?_⟩
      · unfold vorbisAt at hva2 ⊢
        rw [slice_set _ _ _ _ _ (Or.inl (by omega))] at hva2
        exact hva2
      · rw [List.length_set] at hlen2
        exact hlen2
  have h4eq : (file.set (m + 11) c).take 4 = file.take 4 := by
    have h := slice_set file (m + 11) c 0 4 (Or.inl (by omega))
    simpa using h
  have hH : headerRate (file.set (m + 11) c) = headerRate file := by
    by_cases h4 : file.take 4 = oggsMarker
    · rw [headerRate_found (by rw [h4eq]; exact h4) hm', headerRate_found h4 hm]
      dsimp only
      have hver : (((file.set (m + 11) c).take 8192).drop (m + 7)).take 4 =
          ((file.take 8192).drop (m + 7)).take 4 := by
        rw [hw]
        exact slice_set _ _ _ _ _ (Or.inl (by omega))
      have hwlen : ((file.set (m + 11) c).take 8192).length =
          (file.take 8192).length := by
        rw [hw, List.length_set]
      have hrate : (((file.set (m + 11) c).take 8192).drop (m + 7 + 5)).take 4 =
          ((file.take 8192).drop (m + 7 + 5)).take 4 := by
        rw [hw]
        exact slice_set _ _ _ _ _ (Or.inr (by omega))
      rw [hver, hwlen, hrate]
    · rw [headerRate_not_oggs (by rw [h4eq]; exact h4), headerRate_not_oggs h4]
  have hlen' : (file.set (m + 11) c).length = file.length := List.length_set _ _ _
  have hKgt : m + 11 < file.length - min file.length 65536 := by omega
  have hdata : (file.set (m + 11) c).drop
      ((file.set (m + 11) c).length - min (file.set (m + 11) c).length 65536) =
      file.drop (file.length - min file.length 65536) := by
    rw [hlen']
    exact drop_set_of_lt _ _ _ _ hKgt
  have hT : tailGranule (file.set (m + 11) c) = tailGranule file := by
    cases hl : lastOggS (file.drop (file.length - min file.length 65536)) with
    | none =>
      rw [tailGranule_eq_none (by rw [hdata]; exact hl), tailGranule_eq_none hl]
    | some q =>
      rw [tailGranule_eq_some (by rw [hdata]; exact hl), tailGranule_eq_some hl]
      rw [hlen']
      rw [slice_set file (m + 11) c
        (file.length - min file.length 65536 + q + 6) 8 (Or.inr (by omega))]
  rw [calculate_duration, calculate_duration, hH, hT]

/-- C10 amended witness: on the 65560-byte `exBig` (marker at offset 4,
channel byte at offset 15, which is 65545 bytes before the end), writing
7 into the channel byte leaves the result unchanged. -/
theorem c10_witness :
    findVorbis (exBig.take 8192) = some 4 ∧
      calculate_duration (exBig.set 15 7) = calculate_duration exBig :=
  ⟨exBig_findVorbis,
    c10_channel_byte exBig 4 7 exBig_findVorbis (by rw [exBig_length]; norm_num)⟩

/-- C10 counterexample: the 8200-byte inputs `exChan 0` and `exChan 79`
differ only in the channel byte (offset 8189 = marker offset 8178 + 11),
yet the first computes duration 0 and the second 1/26471: with byte 79
the positions 8189-8192 read `OggS` inside the tail window and become the
rightmost capture pattern, moving the granule read. -/
theorem c10_counterexample :
    (exChan 0).set 8189 79 = exChan 79 ∧
      findVorbis ((exChan 0).take 8192) = some 8178 ∧
      calculate_duration (exChan 0) = .ok 0 ∧
      calculate_duration (exChan 79) = .ok (1 / 26471) ∧
      calculate_duration (exChan 0) ≠ calculate_duration (exChan 79) := by
  have hA : calculate_duration (exChan 0) = .ok 0 := by
    rw [calculate_duration_ok (exChan_headerRate 0) exChanA_tailGranule]
    norm_num
  have hB : calculate_duration (exChan 79) = .ok (1 / 26471) := by
    rw [calculate_duration_ok (exChan_headerRate 79) exChanB_tailGranule]
    norm_num
  refine ⟨exChan_set, exChan_findVorbis 0, hA, hB, ?_⟩
  rw [hA, hB]
  intro hc
  injection hc with hc
  norm_num at hc

end ConfigGenerator
